import Mathlib

/-!
Verification of the clause-grounding pipeline of the legal-document
simplification backend (`Backend/app/ai_services.py`).

Python strings are modelled as `List Char`; Python `dict`s (which preserve
insertion order) as association lists with distinct keys.  The external
collaborators (the sentence-embedding model and `util.semantic_search`, and
the `json` parser) are modelled as explicit function parameters constrained
by the contracts the specification gives for them.
-/

set_option maxRecDepth 40000

namespace LegalDocs

/-- Python `str.strip()`: drop whitespace from both ends
(`response.text.strip()` and `s.strip()` in `ai_services.py`). -/
def pyStrip (s : List Char) : List Char :=
  ((s.dropWhile Char.isWhitespace).reverse.dropWhile Char.isWhitespace).reverse

/-- Python `text.split('.')` (`ai_services.py` line 59): split on every
period, keeping empty pieces; the empty string yields one empty piece. -/
def splitOnDot : List Char → List (List Char)
  | [] => [[]]
  | c :: cs =>
    if c = '.' then [] :: splitOnDot cs
    else
      match splitOnDot cs with
      | [] => [[c]]
      | p :: ps => (c :: p) :: ps

/-- The sentence segmenter of `_extract_clause_references` (line 59):
`[s.strip() for s in original_text.split('.') if len(s.strip()) > 20]`. -/
def splitSentences (text : List Char) : List (List Char) :=
  ((splitOnDot text).map pyStrip).filter (fun s => 20 < s.length)

/-- Modelled from the spec: the segmenter as the specification's words
describe it — split on periods, trim, and drop exactly the spans *under*
20 characters (so a span of length exactly 20 is kept).  Used only to
compare the specified behaviour with `splitSentences`. -/
def specSegmenter (text : List Char) : List (List Char) :=
  ((splitOnDot text).map pyStrip).filter (fun s => 20 ≤ s.length)

/-- Python `sep.join(parts)` / reassembly of split pieces. -/
def joinSep (sep : List Char) : List (List Char) → List Char
  | [] => []
  | [x] => x
  | x :: y :: rest => x ++ sep ++ joinSep sep (y :: rest)

/-- Helper for `pyReplace`: scans the text left to right; `skip` counts
characters still inside an already-matched occurrence of the pattern. -/
def pyReplaceAux (pat rep : List Char) : List Char → Nat → List Char
  | [], _ => []
  | _ :: cs, skip + 1 => pyReplaceAux pat rep cs skip
  | c :: cs, 0 =>
    if pat.isPrefixOf (c :: cs) && !pat.isEmpty then
      rep ++ pyReplaceAux pat rep cs (pat.length - 1)
    else
      c :: pyReplaceAux pat rep cs 0

/-- Python `text.replace(pat, rep)` for a non-empty pattern: replace every
non-overlapping occurrence, scanning left to right
(`highlighted_text.replace(...)` in `_highlight_text_with_clauses`). -/
def pyReplace (pat rep s : List Char) : List Char :=
  pyReplaceAux pat rep s 0

/-- The literal token `json`. -/
def jsonTok : List Char := ['j', 's', 'o', 'n']

/-- Python `clean_text.replace("json", "", 1)` (line 118): remove the first
occurrence of `json`. -/
def replaceFirstJson : List Char → List Char
  | [] => []
  | c :: cs =>
    if jsonTok.isPrefixOf (c :: cs) then (c :: cs).drop 4
    else c :: replaceFirstJson cs

/-- The backtick character (written by code to avoid a literal). -/
def btk : Char := Char.ofNat 96

/-- A triple-backtick code fence. -/
def fence : List Char := [btk, btk, btk]

/-- `re.sub(r"^```(json)?", "", s)` (line 121): remove one leading fence,
greedily taking an immediately following `json` tag with it. -/
def stripLeadingFence (s : List Char) : List Char :=
  if (fence ++ jsonTok).isPrefixOf s then s.drop 7
  else if fence.isPrefixOf s then s.drop 3
  else s

/-- Drop the last `n` characters. -/
def dropSuffixN (n : Nat) (s : List Char) : List Char :=
  (s.reverse.drop n).reverse

/-- Python regex `$` matches at the end of the string or just before one
final newline; `re.sub(r"```$", "", s)` (line 122) therefore removes a
trailing fence in either position. -/
def stripTrailingFence (s : List Char) : List Char :=
  if fence.reverse.isPrefixOf s.reverse then dropSuffixN 3 s
  else if (fence ++ ['\n']).reverse.isPrefixOf s.reverse then dropSuffixN 4 s ++ ['\n']
  else s

/-- Lines 117–118: if the stripped text starts with `json`, remove that
(first) occurrence and strip again. -/
def cleanJsonTok (t : List Char) : List Char :=
  if jsonTok.isPrefixOf t then pyStrip (replaceFirstJson t) else t

/-- Lines 120–122: if the text starts with a triple-backtick fence, remove
it (with an optional `json` tag), strip, remove a trailing fence, strip. -/
def cleanFence (t : List Char) : List Char :=
  if fence.isPrefixOf t then pyStrip (stripTrailingFence (pyStrip (stripLeadingFence t)))
  else t

/-- The normalisation step of `simplify_legal_document` (lines 115–122):
strip, drop one leading literal `json` token, then strip a leading and a
trailing triple-backtick fence. -/
def cleanResponse (raw : List Char) : List Char :=
  cleanFence (cleanJsonTok (pyStrip raw))

/-- The positional clause identifier `f"clause_{i}"` (line 63). -/
def clauseId (i : Nat) : List Char :=
  ("clause_").data ++ (toString i).data

/-- `_extract_clause_references` (lines 56–69).  The sentence-embedding
model and `util.semantic_search` are the external similarity collaborator;
they are modelled by the parameter `search`, which returns the
`corpus_id` indices of the (up to `top_k = 2`) best-matching sentences. -/
def extract_clause_references {Q : Type} (search : Q → List (List Char) → List Nat)
    (original_text : List Char) (clauses : List Q) :
    List (List Char × List (List Char)) :=
  let sentences := splitSentences original_text
  clauses.enum.map (fun p =>
    (clauseId (p.1 + 1), (search p.2 sentences).map (fun j => sentences.getD j [])))

/-- The contract of `util.semantic_search(..., top_k=2)` from spec §4.2:
every returned hit is a valid index into the candidate list, and at most
`min 2 (number of candidates)` hits come back. -/
def ValidSearch {Q : Type} (search : Q → List (List Char) → List Nat) : Prop :=
  ∀ q cs, (∀ j ∈ search q cs, j < cs.length) ∧ (search q cs).length ≤ min 2 cs.length

/-- The opening markup of a highlighted span (line 79), carrying the clause
identifier and the fixed `Key Clause` display label. -/
def openTag (clause_id : List Char) : List Char :=
  ("<span class=\"highlighted-clause\" data-clause-id=\"").data ++ clause_id ++
    ("\" title=\"Key Clause\">").data

/-- The closing markup of a highlighted span (line 79). -/
def closeTag : List Char := ("</span>").data

/-- The full wrapped form of one reference span. -/
def clauseSpan (clause_id ref_text : List Char) : List Char :=
  openTag clause_id ++ ref_text ++ closeTag

/-- The body of the inner loop of `_highlight_text_with_clauses`
(lines 75–80): wrap every occurrence of `ref_text`, but only when the
text is non-empty and its stripped form is longer than 20 characters. -/
def highlight_step (t clause_id ref_text : List Char) : List Char :=
  if ref_text ≠ [] ∧ 20 < (pyStrip ref_text).length then
    pyReplace ref_text (clauseSpan clause_id ref_text) t
  else t

/-- `_highlight_text_with_clauses` (lines 71–82): fold the substitution over
the clause-reference mapping in its (insertion) iteration order. -/
def highlight_text_with_clauses (original_text : List Char)
    (clause_references : List (List Char × List (List Char))) : List Char :=
  clause_references.foldl
    (fun acc p => p.2.foldl (fun a r => highlight_step a p.1 r) acc) original_text

/-- Values of a parsed JSON document, as `json.loads` produces them
(booleans and null are not needed by any claim and are omitted). -/
inductive JVal where
  | jstr : List Char → JVal
  | jnum : Int → JVal
  | jarr : List JVal → JVal
  | jobj : List (List Char × JVal) → JVal

/-- Python `dict` lookup returning `None` when the key is absent. -/
def jLookup (m : List (List Char × JVal)) (k : List Char) : Option JVal :=
  (m.find? (fun p => p.1 == k)).map Prod.snd

/-- Python `dict.get(key, default)`. -/
def jGetD (m : List (List Char × JVal)) (k : List Char) (d : JVal) : JVal :=
  (jLookup m k).getD d

mutual

/-- Python `repr` of a JSON value (containers follow Python's bracketed,
comma-separated rendering; strings are quoted). -/
def pyRepr : JVal → List Char
  | .jstr s => ("\x27").data ++ s ++ ("\x27").data
  | .jnum n => (toString n).data
  | .jarr l => ("[").data ++ pyReprArr l ++ ("]").data
  | .jobj m => ("\x7b").data ++ pyReprObj m ++ ("\x7d").data

/-- Comma-separated `repr`s of array elements. -/
def pyReprArr : List JVal → List Char
  | [] => []
  | [v] => pyRepr v
  | v :: vs => pyRepr v ++ (", ").data ++ pyReprArr vs

/-- Comma-separated `repr`s of object entries. -/
def pyReprObj : List (List Char × JVal) → List Char
  | [] => []
  | [p] => ("\x27").data ++ p.1 ++ ("\x27: ").data ++ pyRepr p.2
  | p :: ps =>
    ("\x27").data ++ p.1 ++ ("\x27: ").data ++ pyRepr p.2 ++ (", ").data ++ pyReprObj ps

end

/-- Python `str(...)` as used by f-string interpolation: a string
interpolates as itself, everything else via its `repr`-style rendering
(for numbers the two agree). -/
def toPyStr : JVal → List Char
  | .jstr s => s
  | .jnum n => (toString n).data
  | v => pyRepr v

/-- Python truthiness of `dict.get(key)`: `None` (absent key), empty
strings/containers and zero are falsy. -/
def truthy : Option JVal → Bool
  | none => false
  | some (.jstr s) => !s.isEmpty
  | some (.jnum n) => n != 0
  | some (.jarr l) => !l.isEmpty
  | some (.jobj m) => !m.isEmpty

/-- Python iteration over a value: a list yields its elements, a string its
characters, a dict its keys.  (Iterating a number raises in Python; no
claim exercises that case.) -/
def asList : JVal → List JVal
  | .jarr l => l
  | .jstr s => s.map (fun c => JVal.jstr [c])
  | .jobj m => m.map (fun p => JVal.jstr p.1)
  | .jnum _ => []

/-- Python `str.lower()` on the rendering of a value. -/
def lowerStr (s : List Char) : List Char :=
  s.map Char.toLower

/-- Whether a JSON value is a Python `dict` (`isinstance(clause, dict)`). -/
def isDict : JVal → Bool
  | .jobj _ => true
  | _ => false

/-- The clause block emitted for a dict-shaped clause
(`_format_response_with_html` lines 148–157), transcribed with the
f-string's literal newlines and indentation. -/
def dictClauseHtml (i : Nat) (m : List (List Char × JVal)) : List Char :=
  ("\n                <div class=\x27clause-item\x27 data-clause-id=\x27clause_").data
    ++ (toString (i + 1)).data
    ++ ("\x27>\n                    <h4 class=\x27clause-title\x27>").data
    ++ toPyStr (jGetD m (("title").data) (JVal.jstr (("Clause ").data ++ (toString (i + 1)).data)))
    ++ ("</h4>\n                    <div class=\x27clause-importance importance-").data
    ++ lowerStr (toPyStr (jGetD m (("importance").data) (JVal.jstr (("medium").data))))
    ++ ("\x27>\n                        Importance: ").data
    ++ toPyStr (jGetD m (("importance").data) (JVal.jstr (("Medium").data)))
    ++ ("\n                    </div>\n                    <p class=\x27clause-explanation\x27>").data
    ++ toPyStr (jGetD m (("explanation").data) (JVal.jstr []))
    ++ ("</p>\n                    ").data
    ++ (if truthy (jLookup m (("original_excerpt").data)) then
          ("<blockquote class=\x27original-text\x27>").data
            ++ toPyStr (jGetD m (("original_excerpt").data) (JVal.jstr []))
            ++ ("</blockquote>").data
        else [])
    ++ ("\n                </div>\n                ").data

/-- The clause block emitted for a non-dict clause element
(lines 161–165). -/
def bareClauseHtml (i : Nat) (c : JVal) : List Char :=
  ("\n                <div class=\x27clause-item\x27 data-clause-id=\x27clause_").data
    ++ (toString (i + 1)).data
    ++ ("\x27>\n                    <p class=\x27clause-explanation\x27>").data
    ++ toPyStr c
    ++ ("</p>\n                </div>\n                ").data

/-- One rendered clause block (lines 146–167). -/
def clauseHtml (i : Nat) : JVal → List Char
  | .jobj m => dictClauseHtml i m
  | c => bareClauseHtml i c

/-- The explanation text collected for grounding (lines 159 and 167):
`clause.get('explanation', '')` for a dict, `str(clause)` otherwise. -/
def clauseText : JVal → JVal
  | .jobj m => jGetD m (("explanation").data) (JVal.jstr [])
  | c => JVal.jstr (toPyStr c)

/-- The risk-assessment rendering (lines 169–182): a dict renders the
overall score (default 5 when the key is absent) and a joined factor
list; any other shape is interpolated directly. -/
def riskHtml : JVal → List Char
  | .jobj m =>
    ("\n            <div class=\x27risk-assessment\x27>\n                <div class=\x27overall-risk risk-level-").data
      ++ toPyStr (jGetD m (("overall_risk").data) (JVal.jnum 5))
      ++ ("\x27>\n                    <strong>Overall Risk Score: ").data
      ++ toPyStr (jGetD m (("overall_risk").data) (JVal.jnum 5))
      ++ ("/10</strong>\n                </div>\n                <ul class=\x27risk-factors\x27>\n                    ").data
      ++ joinSep ([' '])
          ((asList (jGetD m (("risk_factors").data) (JVal.jarr []))).map
            (fun f => ("<li class=\x27risk-item\x27>").data ++ toPyStr f ++ ("</li>").data))
      ++ ("\n                </ul>\n            </div>\n            ").data
  | v =>
    ("<div class=\x27risk-assessment\x27><p>Risk Score: ").data ++ toPyStr v ++ ("/10</p></div>").data

/-- The important-terms rendering (lines 184–194): term/definition blocks
for a dict, just the empty section otherwise. -/
def termsHtml : JVal → List Char
  | .jobj m =>
    ("<div class=\x27terms-section\x27>").data
      ++ (m.map (fun p =>
            ("\n                <div class=\x27term-item\x27>\n                    <strong class=\x27term-name\x27>").data
              ++ p.1
              ++ ("</strong>: \n                    <span class=\x27term-definition\x27>").data
              ++ toPyStr p.2
              ++ ("</span>\n                </div>\n                ").data)).flatten
      ++ ("</div>").data
  | _ => ("<div class=\x27terms-section\x27>").data ++ ("</div>").data

/-- The action-items rendering (lines 196–200). -/
def actionsHtml (actions : List JVal) : List Char :=
  ("<ul class=\x27action-items\x27>").data
    ++ (actions.map (fun a => ("<li class=\x27action-item\x27>").data ++ toPyStr a ++ ("</li>").data)).flatten
    ++ ("</ul>").data

/-- The summary rendering (line 140). -/
def summaryHtml (summary : JVal) : List Char :=
  ("<div class=\x27summary-section\x27><p>").data ++ toPyStr summary ++ ("</p></div>").data

/-- The record `_format_response_with_html` returns (lines 205–213). -/
structure FormattedResult where
  SIMPLIFIED_SUMMARY : List Char
  KEY_CLAUSES : List (List Char)
  RISK_ASSESSMENT : List Char
  IMPORTANT_TERMS : List Char
  ACTION_ITEMS : List Char
  highlighted_document : List Char
  clause_references : List (List Char × List (List Char))

/-- `_format_response_with_html` (lines 138–213), with the similarity
collaborator abstracted as `search` (queries here are the collected
clause values, as the Python passes them through unchanged). -/
def format_response_with_html (search : JVal → List (List Char) → List Nat)
    (result : List (List Char × JVal)) (original_text : List Char) : FormattedResult :=
  { SIMPLIFIED_SUMMARY := summaryHtml (jGetD result (("SIMPLIFIED_SUMMARY").data) (JVal.jstr []))
    KEY_CLAUSES :=
      (asList (jGetD result (("KEY_CLAUSES").data) (JVal.jarr []))).enum.map
        (fun p => clauseHtml p.1 p.2)
    RISK_ASSESSMENT := riskHtml (jGetD result (("RISK_ASSESSMENT").data) (JVal.jobj []))
    IMPORTANT_TERMS := termsHtml (jGetD result (("IMPORTANT_TERMS").data) (JVal.jobj []))
    ACTION_ITEMS := actionsHtml (asList (jGetD result (("ACTION_ITEMS").data) (JVal.jarr [])))
    highlighted_document :=
      ("<div class=\x27document-text\x27>").data
        ++ highlight_text_with_clauses original_text
            (extract_clause_references search original_text
              ((asList (jGetD result (("KEY_CLAUSES").data) (JVal.jarr []))).map clauseText))
        ++ ("</div>").data
    clause_references :=
      extract_clause_references search original_text
        ((asList (jGetD result (("KEY_CLAUSES").data) (JVal.jarr []))).map clauseText) }

/-- Python runtime values as returned by `simplify_legal_document`: the
fallback branch (line 130) builds a one-element *set* `{response.text}`,
so sets must be representable alongside strings, lists and dicts. -/
inductive PyVal where
  | vstr : List Char → PyVal
  | vset : List PyVal → PyVal
  | vlist : List PyVal → PyVal
  | vdict : List (List Char × PyVal) → PyVal
  | vint : Int → PyVal

/-- The successful result dict, assembled from the formatted record. -/
def formattedToPy (fr : FormattedResult) : PyVal :=
  PyVal.vdict
    [ ((("SIMPLIFIED_SUMMARY").data), PyVal.vstr fr.SIMPLIFIED_SUMMARY)
    , ((("KEY_CLAUSES").data), PyVal.vlist (fr.KEY_CLAUSES.map PyVal.vstr))
    , ((("RISK_ASSESSMENT").data), PyVal.vstr fr.RISK_ASSESSMENT)
    , ((("IMPORTANT_TERMS").data), PyVal.vstr fr.IMPORTANT_TERMS)
    , ((("ACTION_ITEMS").data), PyVal.vstr fr.ACTION_ITEMS)
    , ((("highlighted_document").data), PyVal.vstr fr.highlighted_document)
    , ((("clause_references").data),
        PyVal.vdict (fr.clause_references.map (fun p => (p.1, PyVal.vlist (p.2.map PyVal.vstr))))) ]

/-- The fixed record returned on a JSON parse failure (lines 129–136),
transcribed literally: note the *set* `{response.text}` in
`SIMPLIFIED_SUMMARY`. -/
def fallbackRecord (response_text text : List Char) : PyVal :=
  PyVal.vdict
    [ ((("SIMPLIFIED_SUMMARY").data), PyVal.vset [PyVal.vstr response_text])
    , ((("KEY_CLAUSES").data),
        PyVal.vlist
          [PyVal.vdict
            [ ((("title").data), PyVal.vstr (("Unable to parse").data))
            , ((("explanation").data), PyVal.vstr (("Please review manually").data))
            , ((("importance").data), PyVal.vstr (("Medium").data)) ]])
    , ((("RISK_ASSESSMENT").data),
        PyVal.vdict
          [ ((("overall_risk").data), PyVal.vint 5)
          , ((("risk_factors").data), PyVal.vlist []) ])
    , ((("IMPORTANT_TERMS").data), PyVal.vdict [])
    , ((("ACTION_ITEMS").data), PyVal.vlist [PyVal.vstr (("<p>Review document carefully</p>").data)])
    , ((("highlighted_document").data),
        PyVal.vstr ((("<div class=\x27document-text\x27>").data) ++ text ++ (("</div>").data))) ]

/-- The post-model-call part of `simplify_legal_document` (lines 114–136):
normalise the raw completion, try to parse it (`json.loads` is the
external JSON parser, abstracted as `parse`; success is a top-level
object), format on success, and return the fixed fallback record on a
decode failure. -/
def simplify_legal_document (parse : List Char → Option (List (List Char × JVal)))
    (search : JVal → List (List Char) → List Nat)
    (response_text text : List Char) : PyVal :=
  match parse (cleanResponse response_text) with
  | some result => formattedToPy (format_response_with_html search result text)
  | none => fallbackRecord response_text text

/-! ### Lemmas about stripping and splitting -/

lemma dropWhile_ws_append (w s : List Char) (hw : ∀ c ∈ w, c.isWhitespace = true) :
    (w ++ s).dropWhile Char.isWhitespace = s.dropWhile Char.isWhitespace := by
  induction w with
  | nil => rfl
  | cons c cs ih =>
    rw [List.cons_append, List.dropWhile_cons, if_pos (hw c (List.mem_cons_self c cs))]
    exact ih (fun x hx => hw x (List.mem_cons_of_mem _ hx))

lemma head?_dropWhile_false (p : Char → Bool) :
    ∀ (s : List Char) (a : Char), (s.dropWhile p).head? = some a → p a = false := by
  intro s
  induction s with
  | nil => intro a h; simp at h
  | cons c cs ih =>
    intro a h
    rw [List.dropWhile_cons] at h
    by_cases hc : p c = true
    · exact ih a (by rwa [if_pos hc] at h)
    · rw [if_neg hc] at h
      simp only [List.head?_cons, Option.some.injEq] at h
      subst h
      exact Bool.not_eq_true _ ▸ (by simpa using hc)

lemma getLast?_of_suffix {l₁ l₂ : List Char} (h : l₁ <:+ l₂) (hne : l₁ ≠ []) :
    l₁.getLast? = l₂.getLast? := by
  obtain ⟨pre, rfl⟩ := h
  rw [List.getLast?_append]
  cases hl : l₁.getLast? with
  | none => exact absurd (List.getLast?_eq_none_iff.mp hl) hne
  | some b => rfl

lemma pyStrip_sandwich (w1 w2 s : List Char)
    (hw1 : ∀ c ∈ w1, c.isWhitespace = true) (hw2 : ∀ c ∈ w2, c.isWhitespace = true)
    (a : Char) (ha : s.head? = some a) (hna : a.isWhitespace = false)
    (b : Char) (hb : s.getLast? = some b) (hnb : b.isWhitespace = false) :
    pyStrip (w1 ++ s ++ w2) = s := by
  obtain ⟨s', rfl⟩ : ∃ s', s = a :: s' := by
    cases s with
    | nil => simp at ha
    | cons x xs =>
      simp only [List.head?_cons, Option.some.injEq] at ha
      exact ⟨xs, by rw [ha]⟩
  have h1 : (w1 ++ (a :: s') ++ w2).dropWhile Char.isWhitespace = (a :: s') ++ w2 := by
    rw [List.append_assoc, dropWhile_ws_append _ _ hw1, List.cons_append,
      List.dropWhile_cons, if_neg (by simp [hna])]
  have h2 : ((a :: s') ++ w2).reverse.dropWhile Char.isWhitespace = (a :: s').reverse := by
    rw [List.reverse_append,
      dropWhile_ws_append _ _ (fun c hc => hw2 c (List.mem_reverse.mp hc))]
    obtain ⟨t, ht⟩ : ∃ t, (a :: s').reverse = b :: t := by
      have hrb : (a :: s').reverse.head? = some b := by
        rw [List.head?_reverse]; exact hb
      cases hrev : (a :: s').reverse with
      | nil => rw [hrev] at hrb; simp at hrb
      | cons x xs =>
        rw [hrev] at hrb
        simp only [List.head?_cons, Option.some.injEq] at hrb
        exact ⟨xs, by rw [hrb]⟩
    rw [ht, List.dropWhile_cons, if_neg (by simp [hnb]), ← ht]
  have hps : pyStrip (w1 ++ (a :: s') ++ w2) =
      (((w1 ++ (a :: s') ++ w2).dropWhile Char.isWhitespace).reverse.dropWhile
        Char.isWhitespace).reverse := rfl
  rw [hps, h1, h2, List.reverse_reverse]

lemma pyStrip_substring (s : List Char) : pyStrip s <:+: s := by
  have h1 : s.dropWhile Char.isWhitespace <:+ s := List.dropWhile_suffix _
  have h2 : (s.dropWhile Char.isWhitespace).reverse.dropWhile Char.isWhitespace <:+
      (s.dropWhile Char.isWhitespace).reverse := List.dropWhile_suffix _
  have h3 : pyStrip s <+: s.dropWhile Char.isWhitespace := by
    rw [← List.reverse_suffix]
    show (((s.dropWhile Char.isWhitespace).reverse.dropWhile Char.isWhitespace).reverse).reverse
      <:+ (s.dropWhile Char.isWhitespace).reverse
    rwa [List.reverse_reverse]
  exact h3.isInfix.trans h1.isInfix

lemma pyStrip_head_last (s : List Char) (hne : pyStrip s ≠ []) :
    ∃ a b, (pyStrip s).head? = some a ∧ a.isWhitespace = false ∧
      (pyStrip s).getLast? = some b ∧ b.isWhitespace = false := by
  have hps : pyStrip s =
      ((s.dropWhile Char.isWhitespace).reverse.dropWhile Char.isWhitespace).reverse := rfl
  have hune : (s.dropWhile Char.isWhitespace).reverse.dropWhile Char.isWhitespace ≠ [] := by
    intro h
    apply hne
    rw [hps, h, List.reverse_nil]
  obtain ⟨b, hb⟩ :
      ∃ b, ((s.dropWhile Char.isWhitespace).reverse.dropWhile Char.isWhitespace).head?
        = some b := by
    cases hu : (s.dropWhile Char.isWhitespace).reverse.dropWhile Char.isWhitespace with
    | nil => exact absurd hu hune
    | cons x xs => exact ⟨x, rfl⟩
  have hnb : b.isWhitespace = false := head?_dropWhile_false _ _ _ hb
  have htne : s.dropWhile Char.isWhitespace ≠ [] := by
    intro h
    apply hune
    rw [h]
    rfl
  obtain ⟨a, hta⟩ : ∃ a, (s.dropWhile Char.isWhitespace).head? = some a := by
    cases ht : s.dropWhile Char.isWhitespace with
    | nil => exact absurd ht htne
    | cons x xs => exact ⟨x, rfl⟩
  have hna : a.isWhitespace = false := head?_dropWhile_false _ _ _ hta
  have hlast : ((s.dropWhile Char.isWhitespace).reverse.dropWhile Char.isWhitespace).getLast?
      = (s.dropWhile Char.isWhitespace).head? := by
    rw [getLast?_of_suffix (List.dropWhile_suffix _) hune, List.getLast?_reverse]
  refine ⟨a, b, ?_, hna, ?_, hnb⟩
  · rw [hps, List.head?_reverse, hlast, hta]
  · rw [hps, List.getLast?_reverse, hb]

lemma pyStrip_idem (s : List Char) : pyStrip (pyStrip s) = pyStrip s := by
  by_cases h : pyStrip s = []
  · rw [h]; rfl
  · obtain ⟨a, b, ha, hna, hb, hnb⟩ := pyStrip_head_last s h
    have := pyStrip_sandwich [] [] (pyStrip s) (by simp) (by simp) a ha hna b hb hnb
    simpa using this

lemma splitOnDot_cons (c : Char) (cs : List Char) :
    splitOnDot (c :: cs) =
      if c = '.' then [] :: splitOnDot cs
      else
        match splitOnDot cs with
        | [] => [[c]]
        | p :: ps => (c :: p) :: ps := rfl

lemma splitOnDot_parts (s : List Char) :
    ∃ p ps, splitOnDot s = p :: ps ∧ p <+: s ∧ ∀ q ∈ ps, q <:+: s := by
  induction s with
  | nil => exact ⟨[], [], rfl, List.nil_prefix, by simp⟩
  | cons c cs ih =>
    obtain ⟨p, ps, hsp, hp, hps⟩ := ih
    by_cases h : c = '.'
    · refine ⟨[], splitOnDot cs, by rw [splitOnDot_cons, if_pos h], List.nil_prefix, ?_⟩
      intro q hq
      rw [hsp] at hq
      rcases List.mem_cons.mp hq with rfl | hq'
      · exact List.infix_cons hp.isInfix
      · exact List.infix_cons (hps q hq')
    · refine ⟨c :: p, ps, ?_, ?_, ?_⟩
      · rw [splitOnDot_cons, if_neg h, hsp]
      · obtain ⟨r, hr⟩ := hp
        exact ⟨r, by rw [List.cons_append, hr]⟩
      · intro q hq
        exact List.infix_cons (hps q hq)

lemma joinSep_cons_cons (sep x y : List Char) (rest : List (List Char)) :
    joinSep sep (x :: y :: rest) = x ++ sep ++ joinSep sep (y :: rest) := rfl

lemma joinSep_cons_head (sep : List Char) (c : Char) (q : List Char) (rest : List (List Char)) :
    joinSep sep ((c :: q) :: rest) = c :: joinSep sep (q :: rest) := by
  cases rest with
  | nil => rfl
  | cons y r => simp [joinSep_cons_cons, List.cons_append]

lemma splitOnDot_joinSep (s : List Char) : joinSep (['.']) (splitOnDot s) = s := by
  induction s with
  | nil => rfl
  | cons c cs ih =>
    by_cases h : c = '.'
    · subst h
      rw [splitOnDot_cons, if_pos rfl]
      obtain ⟨p, ps, hsp, -, -⟩ := splitOnDot_parts cs
      rw [hsp] at ih ⊢
      rw [joinSep_cons_cons]
      simpa using ih
    · rw [splitOnDot_cons, if_neg h]
      obtain ⟨p, ps, hsp, -, -⟩ := splitOnDot_parts cs
      rw [hsp] at ih ⊢
      rw [joinSep_cons_head]
      rw [ih]

lemma mem_splitSentences_substring {s text : List Char} (h : s ∈ splitSentences text) :
    s <:+: text := by
  rw [splitSentences, List.mem_filter] at h
  obtain ⟨hmem, -⟩ := h
  obtain ⟨piece, hpiece, rfl⟩ := List.mem_map.mp hmem
  obtain ⟨p, ps, hsp, hp, hps⟩ := splitOnDot_parts text
  rw [hsp] at hpiece
  rcases List.mem_cons.mp hpiece with rfl | hq
  · exact (pyStrip_substring _).trans hp.isInfix
  · exact (pyStrip_substring _).trans (hps _ hq)

lemma mem_splitSentences_strip_len {s text : List Char} (h : s ∈ splitSentences text) :
    pyStrip s = s ∧ 20 < s.length := by
  rw [splitSentences, List.mem_filter] at h
  obtain ⟨hmem, hlen⟩ := h
  obtain ⟨piece, hpiece, rfl⟩ := List.mem_map.mp hmem
  exact ⟨pyStrip_idem piece, by simpa using hlen⟩

/-! ### Claim C6: the sentence segmenter -/

/-- C6 counterexample: the claim says every span *under* 20 characters is
dropped (so a trimmed span of exactly 20 characters is kept), but the code
filters with `len(s.strip()) > 20` and drops it: on a 20-character input
with no period the code yields no sentences while the claimed behaviour
(`specSegmenter`) yields the span. -/
theorem splitSentences_drops_exact_twenty :
    (("aaaaaaaaaaaaaaaaaaaa").data).length = 20 ∧
    splitSentences (("aaaaaaaaaaaaaaaaaaaa").data) = [] ∧
    specSegmenter (("aaaaaaaaaaaaaaaaaaaa").data) = [("aaaaaaaaaaaaaaaaaaaa").data] := by
  decide

/-- C6 (amended): the segmenter splits the input on every period (the
pieces reassemble to the input with `'.'` interposed), trims each piece,
and keeps exactly the trimmed spans of length strictly greater than 20 —
so every yielded sentence has length at least 21, is trimmed, and is a
substring of the input; the empty input yields the empty sequence and
never an error. -/
theorem splitSentences_spec (text : List Char) :
    joinSep (['.']) (splitOnDot text) = text ∧
    (∀ s ∈ splitSentences text, 21 ≤ s.length ∧ s <:+: text ∧ pyStrip s = s) ∧
    splitSentences ([] : List Char) = [] := by
  refine ⟨splitOnDot_joinSep text, ?_, rfl⟩
  intro s hs
  obtain ⟨hstrip, hlen⟩ := mem_splitSentences_strip_len hs
  exact ⟨by omega, mem_splitSentences_substring hs, hstrip⟩

/-- C6 witness: the amended theorem applied to a concrete document with
one long sentence and one short one. -/
theorem splitSentences_spec_witness :
    ("This agreement is valid for one year and binding").data ∈
      splitSentences (("This agreement is valid for one year and binding. Ok.").data) ∧
    (21 ≤ (("This agreement is valid for one year and binding").data).length ∧
      ("This agreement is valid for one year and binding").data <:+:
        ("This agreement is valid for one year and binding. Ok.").data ∧
      pyStrip (("This agreement is valid for one year and binding").data) =
        ("This agreement is valid for one year and binding").data) :=
  ⟨by decide,
    (splitSentences_spec (("This agreement is valid for one year and binding. Ok.").data)).2.1
      _ (by decide)⟩

/-! ### Claims C1 and C7: the clause grounder -/

/-- A simple concrete similarity collaborator used in witnesses: return the
first `min 2 n` candidate indices. -/
def searchTop2 {Q : Type} (_ : Q) (cs : List (List Char)) : List Nat :=
  List.range (min 2 cs.length)

lemma validSearch_searchTop2 {Q : Type} : ValidSearch (searchTop2 (Q := Q)) := by
  intro q cs
  constructor
  · intro j hj
    have h := List.mem_range.mp hj
    omega
  · rw [searchTop2, List.length_range]

/-- C1: whenever the document has at least two usable sentences (in the
claim's sense: trimmed period-delimited spans of length at least 20) and
the similarity collaborator honours its contract, the grounder returns one
entry per clause, keyed `clause_1 .. clause_M` by input position, each
entry holding at most two sentence strings, every one of which is a
substring of the original document text. -/
theorem extract_clause_references_shape {Q : Type}
    (search : Q → List (List Char) → List Nat) (hs : ValidSearch search)
    (text : List Char) (clauses : List Q)
    (_husable : 2 ≤ (specSegmenter text).length) :
    (extract_clause_references search text clauses).length = clauses.length ∧
    (extract_clause_references search text clauses).map Prod.fst =
      (List.range clauses.length).map (fun i => clauseId (i + 1)) ∧
    ∀ p ∈ extract_clause_references search text clauses,
      p.2.length ≤ 2 ∧ ∀ s ∈ p.2, s <:+: text := by
  refine ⟨?_, ?_, ?_⟩
  · simp [extract_clause_references]
  · have h1 : (extract_clause_references search text clauses).map Prod.fst
        = clauses.enum.map (fun p => clauseId (p.1 + 1)) := by
      simp only [extract_clause_references, List.map_map]
      rfl
    rw [h1,
      show (fun (p : Nat × Q) => clauseId (p.1 + 1))
          = ((fun i => clauseId (i + 1)) ∘ Prod.fst) from rfl,
      ← List.map_map, List.enum_map_fst]
  · intro p hp
    simp only [extract_clause_references] at hp
    obtain ⟨⟨i, q⟩, hmem, rfl⟩ := List.mem_map.mp hp
    constructor
    · have h2 := (hs q (splitSentences text)).2
      have h3 : min 2 (splitSentences text).length ≤ 2 := min_le_left _ _
      simpa using le_trans h2 h3
    · intro s hsmem
      obtain ⟨j, hj, rfl⟩ := List.mem_map.mp hsmem
      have hjlt : j < (splitSentences text).length := (hs q (splitSentences text)).1 j hj
      have hmem2 : (splitSentences text).getD j [] ∈ splitSentences text := by
        rw [List.getD_eq_getElem _ _ hjlt]
        exact List.getElem_mem hjlt
      exact mem_splitSentences_substring hmem2

/-- C1 witness: the theorem applied to a concrete two-sentence lease text
and two clause explanations, with the concrete collaborator. -/
theorem extract_clause_references_shape_witness :
    ValidSearch (searchTop2 (Q := List Char)) ∧
    2 ≤ (specSegmenter
      (("The tenant shall pay rent monthly. The landlord shall maintain the premises.").data)).length ∧
    ((extract_clause_references (searchTop2 (Q := List Char))
        (("The tenant shall pay rent monthly. The landlord shall maintain the premises.").data)
        [("rent obligations").data, ("maintenance duties").data]).length =
      ([("rent obligations").data, ("maintenance duties").data] : List (List Char)).length ∧
     (extract_clause_references (searchTop2 (Q := List Char))
        (("The tenant shall pay rent monthly. The landlord shall maintain the premises.").data)
        [("rent obligations").data, ("maintenance duties").data]).map Prod.fst =
      (List.range ([("rent obligations").data, ("maintenance duties").data] : List (List Char)).length).map
        (fun i => clauseId (i + 1)) ∧
     ∀ p ∈ extract_clause_references (searchTop2 (Q := List Char))
        (("The tenant shall pay rent monthly. The landlord shall maintain the premises.").data)
        [("rent obligations").data, ("maintenance duties").data],
       p.2.length ≤ 2 ∧ ∀ s ∈ p.2,
         s <:+: ("The tenant shall pay rent monthly. The landlord shall maintain the premises.").data) :=
  ⟨validSearch_searchTop2, by decide,
    extract_clause_references_shape _ validSearch_searchTop2 _ _ (by decide)⟩

/-- C7: when segmentation yields no usable sentence, the grounder still
returns one entry per clause, every one mapped to the empty span list. -/
theorem extract_clause_references_no_sentences {Q : Type}
    (search : Q → List (List Char) → List Nat) (hs : ValidSearch search)
    (text : List Char) (clauses : List Q)
    (_hclauses : clauses ≠ []) (hempty : splitSentences text = []) :
    extract_clause_references search text clauses =
      (List.range clauses.length).map (fun i => (clauseId (i + 1), ([] : List (List Char)))) := by
  have hhits : ∀ q : Q, search q ([] : List (List Char)) = [] := by
    intro q
    have h2 := (hs q ([] : List (List Char))).2
    simp only [List.length_nil, Nat.min_zero, Nat.le_zero] at h2
    exact List.length_eq_zero.mp h2
  have h1 : extract_clause_references search text clauses
      = clauses.enum.map (fun p => (clauseId (p.1 + 1), ([] : List (List Char)))) := by
    simp only [extract_clause_references, hempty]
    apply List.map_congr_left
    intro p hp
    rw [hhits p.2]
    rfl
  rw [h1,
    show (fun (p : Nat × Q) => (clauseId (p.1 + 1), ([] : List (List Char))))
        = ((fun i => (clauseId (i + 1), ([] : List (List Char)))) ∘ Prod.fst) from rfl,
    ← List.map_map, List.enum_map_fst]

/-- C7 witness: a document whose only period-delimited spans are short,
with one clause. -/
theorem extract_clause_references_no_sentences_witness :
    ValidSearch (searchTop2 (Q := List Char)) ∧
    ([("anything at all").data] : List (List Char)) ≠ [] ∧
    splitSentences (("Hi. Ok.").data) = [] ∧
    extract_clause_references (searchTop2 (Q := List Char)) (("Hi. Ok.").data)
        [("anything at all").data] =
      (List.range ([("anything at all").data] : List (List Char)).length).map
        (fun i => (clauseId (i + 1), ([] : List (List Char)))) :=
  ⟨validSearch_searchTop2, by decide, by decide,
    extract_clause_references_no_sentences _ validSearch_searchTop2 _ _ (by decide) (by decide)⟩

/-! ### Claim C9: the annotator on the empty mapping -/

/-- C9: annotating any document text with an empty clause-reference mapping
returns the text unchanged — the fold over an empty mapping is the
identity (the fixed `document-text` wrapper of the claim is added by the
caller around this result, not by the annotator itself). -/
theorem highlight_empty_references (original_text : List Char) :
    highlight_text_with_clauses original_text [] = original_text := rfl

/-! ### Lemmas about literal-text replacement -/

lemma pyReplaceAux_skip (pat rep : List Char) :
    ∀ (k : Nat) (s : List Char), pyReplaceAux pat rep s k = pyReplaceAux pat rep (s.drop k) 0 := by
  intro k
  induction k with
  | zero => intro s; rw [List.drop_zero]
  | succ n ih =>
    intro s
    cases s with
    | nil => rfl
    | cons c cs =>
      show pyReplaceAux pat rep cs n = _
      rw [ih cs]
      rfl

lemma pyReplace_cons (pat rep : List Char) (c : Char) (cs : List Char) :
    pyReplace pat rep (c :: cs) =
      if pat.isPrefixOf (c :: cs) && !pat.isEmpty then
        rep ++ pyReplace pat rep ((c :: cs).drop pat.length)
      else c :: pyReplace pat rep cs := by
  have h0 : pyReplace pat rep (c :: cs) =
      if pat.isPrefixOf (c :: cs) && !pat.isEmpty then
        rep ++ pyReplaceAux pat rep cs (pat.length - 1)
      else c :: pyReplaceAux pat rep cs 0 := rfl
  rw [h0]
  by_cases h : (pat.isPrefixOf (c :: cs) && !pat.isEmpty) = true
  · rw [if_pos h, if_pos h, pyReplaceAux_skip]
    cases pat with
    | nil => simp at h
    | cons p pr => rfl
  · rw [if_neg h, if_neg h]
    rfl

lemma pyReplace_decomp_nil (pat rep : List Char) (hp : pat ≠ []) :
    ∃ parts : List (List Char), parts ≠ [] ∧ joinSep pat parts = [] ∧
      pyReplace pat rep [] = joinSep rep parts ∧ ∀ q ∈ parts, ¬ pat <:+: q := by
  refine ⟨[[]], by simp, rfl, rfl, ?_⟩
  intro q hq
  rw [List.mem_singleton] at hq
  subst hq
  intro hinf
  exact hp (List.length_eq_zero.mp (Nat.le_zero.mp hinf.length_le))

/-- Python `replace` decomposes the text into the pieces between the
(greedily matched, non-overlapping, left-to-right) occurrences of the
pattern: the pieces reassemble to the input with the pattern interposed,
the result is the pieces with the replacement interposed, and no piece
contains a further occurrence of the pattern. -/
theorem pyReplace_decomp (pat rep : List Char) (hp : pat ≠ []) (s : List Char) :
    ∃ parts : List (List Char), parts ≠ [] ∧ joinSep pat parts = s ∧
      pyReplace pat rep s = joinSep rep parts ∧ ∀ q ∈ parts, ¬ pat <:+: q := by
  suffices h : ∀ n (s : List Char), s.length ≤ n →
      ∃ parts : List (List Char), parts ≠ [] ∧ joinSep pat parts = s ∧
        pyReplace pat rep s = joinSep rep parts ∧ ∀ q ∈ parts, ¬ pat <:+: q by
    exact h s.length s le_rfl
  intro n
  induction n with
  | zero =>
    intro s hs
    have : s = [] := List.length_eq_zero.mp (Nat.le_zero.mp hs)
    subst this
    exact pyReplace_decomp_nil pat rep hp
  | succ n ih =>
    intro s hs
    cases s with
    | nil => exact pyReplace_decomp_nil pat rep hp
    | cons c cs =>
      have hplen : 1 ≤ pat.length := by
        cases pat with
        | nil => exact absurd rfl hp
        | cons p pr => simp
      by_cases h : (pat.isPrefixOf (c :: cs) && !pat.isEmpty) = true
      · have hpre : pat <+: c :: cs := by
          have hh := h
          simp only [Bool.and_eq_true] at hh
          exact List.isPrefixOf_iff_prefix.mp hh.1
        obtain ⟨t, ht⟩ := hpre
        have hlen : t.length ≤ n := by
          have hl : pat.length + t.length = cs.length + 1 := by
            rw [← List.length_append, ht, List.length_cons]
          have hsl : cs.length + 1 ≤ n + 1 := by simpa using hs
          omega
        obtain ⟨parts', hne', hj', hr', hocc'⟩ := ih t hlen
        obtain ⟨q, r, rfl⟩ : ∃ q r, parts' = q :: r := by
          cases parts' with
          | nil => exact absurd rfl hne'
          | cons q r => exact ⟨q, r, rfl⟩
        refine ⟨[] :: q :: r, by simp, ?_, ?_, ?_⟩
        · rw [joinSep_cons_cons, hj']
          simpa using ht
        · rw [pyReplace_cons, if_pos h]
          have hdrop : (c :: cs).drop pat.length = t := by
            rw [← ht, List.drop_left]
          rw [hdrop, hr', joinSep_cons_cons]
          simp
        · intro x hx
          rcases List.mem_cons.mp hx with rfl | hx'
          · intro hinf
            exact hp (List.length_eq_zero.mp (Nat.le_zero.mp hinf.length_le))
          · exact hocc' x hx'
      · have hnotpre : ¬ pat <+: c :: cs := by
          intro hpre
          apply h
          rw [Bool.and_eq_true]
          refine ⟨List.isPrefixOf_iff_prefix.mpr hpre, ?_⟩
          cases pat with
          | nil => exact absurd rfl hp
          | cons p pr => rfl
        obtain ⟨parts', hne', hj', hr', hocc'⟩ := ih cs (by simpa using hs)
        obtain ⟨q, r, rfl⟩ : ∃ q r, parts' = q :: r := by
          cases parts' with
          | nil => exact absurd rfl hne'
          | cons q r => exact ⟨q, r, rfl⟩
        refine ⟨(c :: q) :: r, by simp, ?_, ?_, ?_⟩
        · rw [joinSep_cons_head, hj']
        · rw [pyReplace_cons, if_neg h, hr', joinSep_cons_head]
        · intro x hx
          rcases List.mem_cons.mp hx with rfl | hx'
          · intro hinf
            rcases List.infix_cons_iff.mp hinf with hpre2 | hinf'
            · have hccs : c :: cs = joinSep pat ((c :: q) :: r) := by
                rw [joinSep_cons_head, hj']
              have hq2 : c :: q <+: c :: cs := by
                rw [hccs]
                cases r with
                | nil => exact List.prefix_refl _
                | cons y yr =>
                  rw [joinSep_cons_cons, List.append_assoc]
                  exact List.prefix_append _ _
              exact hnotpre (hpre2.trans hq2)
            · exact hocc' q (List.mem_cons_self q r) hinf'
          · exact hocc' x (List.mem_cons_of_mem _ hx')

/-- Positions strictly inside `A` (as continued by `B`) carry no occurrence
of `pat`. -/
abbrev noMatchBefore (pat A B : List Char) : Prop :=
  ∀ i, i < A.length → ¬ pat <+: (A.drop i ++ B)

lemma pyReplace_append_of_noMatch (pat rep A B : List Char) (h : noMatchBefore pat A B) :
    pyReplace pat rep (A ++ B) = A ++ pyReplace pat rep B := by
  induction A with
  | nil => rfl
  | cons a A' ih =>
    have hno : ¬ (pat.isPrefixOf (a :: (A' ++ B)) && !pat.isEmpty) = true := by
      intro hb
      have hh := hb
      simp only [Bool.and_eq_true] at hh
      have hpre := List.isPrefixOf_iff_prefix.mp hh.1
      exact h 0 (by simp) (by simpa using hpre)
    have h' : noMatchBefore pat A' B := by
      intro i hi
      have hi' : i + 1 < (a :: A').length := by simpa using Nat.succ_lt_succ hi
      exact h (i + 1) hi'
    rw [List.cons_append, pyReplace_cons, if_neg hno, ih h']
    rfl

lemma pyReplace_eq_self_of_noMatch (pat rep s : List Char) (h : noMatchBefore pat s []) :
    pyReplace pat rep s = s := by
  have h2 := pyReplace_append_of_noMatch pat rep s [] h
  rw [List.append_nil] at h2
  rw [h2, show pyReplace pat rep ([] : List Char) = [] from rfl, List.append_nil]

lemma pyReplace_head_match (pat rep B : List Char) (hp : pat ≠ []) :
    pyReplace pat rep (pat ++ B) = rep ++ pyReplace pat rep B := by
  cases pat with
  | nil => exact absurd rfl hp
  | cons p pr =>
    have hcond : ((p :: pr).isPrefixOf (p :: (pr ++ B)) && !(p :: pr).isEmpty) = true := by
      rw [Bool.and_eq_true]
      exact ⟨List.isPrefixOf_iff_prefix.mpr (by simp), rfl⟩
    rw [show (p :: pr) ++ B = p :: (pr ++ B) from rfl, pyReplace_cons, if_pos hcond]
    rw [show (p :: (pr ++ B)).drop (p :: pr).length = B from by simp]

/-! ### Claim C4: the annotator wraps occurrences -/

/-- C4 counterexample: the claim requires every occurrence of a non-empty
span of at least 20 characters to be wrapped in markup, but the code's
condition `len(ref_text.strip()) > 20` skips a span of exactly 20
characters, leaving the document entirely unannotated (no `<` appears). -/
theorem highlight_skips_twenty_char_span :
    ((("abcdefghijklmnopqrst").data ≠ []) ∧ (("abcdefghijklmnopqrst").data).length = 20) ∧
    highlight_text_with_clauses (("abcdefghijklmnopqrst").data)
        [((("clause_1").data), [("abcdefghijklmnopqrst").data])] =
      ("abcdefghijklmnopqrst").data ∧
    ('<' ∉ ("abcdefghijklmnopqrst").data) := by
  decide

/-- C4 (amended): for a reference span that is non-empty and whose
*stripped* text is *strictly longer* than 20 characters, one annotation
step decomposes the working document into the pieces between the
(non-overlapping, left-to-right) occurrences of the span: the result is
those pieces, unchanged and in order, with every matched occurrence
replaced by the span wrapped in markup carrying the clause identifier and
the fixed label, and no piece contains a further occurrence; moreover the
full annotator processes the mapping pair by pair, feeding each pair the
working document produced so far. -/
theorem highlight_step_wraps (w clause_id ref : List Char)
    (h1 : ref ≠ []) (h2 : 20 < (pyStrip ref).length) :
    (∃ parts : List (List Char), parts ≠ [] ∧ joinSep ref parts = w ∧
      highlight_step w clause_id ref = joinSep (clauseSpan clause_id ref) parts ∧
      ∀ q ∈ parts, ¬ ref <:+: q) ∧
    ∀ (t : List Char) (refs : List (List Char)) (rest : List (List Char × List (List Char))),
      highlight_text_with_clauses t ((clause_id, refs) :: rest) =
        highlight_text_with_clauses (refs.foldl (fun a r => highlight_step a clause_id r) t)
          rest := by
  constructor
  · obtain ⟨parts, hne, hj, hr, hocc⟩ := pyReplace_decomp ref (clauseSpan clause_id ref) h1 w
    refine ⟨parts, hne, hj, ?_, hocc⟩
    rw [highlight_step, if_pos ⟨h1, h2⟩]
    exact hr
  · intro t refs rest
    rfl

/-- C4 witness: the amended theorem applied to a document containing one
21-character span twice. -/
theorem highlight_step_wraps_witness :
    ((("all deposits are kept").data ≠ []) ∧
      20 < (pyStrip (("all deposits are kept").data)).length) ∧
    ((∃ parts : List (List Char), parts ≠ [] ∧
      joinSep (("all deposits are kept").data) parts =
        ("Note: all deposits are kept in escrow; all deposits are kept safe.").data ∧
      highlight_step (("Note: all deposits are kept in escrow; all deposits are kept safe.").data)
          (("clause_1").data) (("all deposits are kept").data) =
        joinSep (clauseSpan (("clause_1").data) (("all deposits are kept").data)) parts ∧
      ∀ q ∈ parts, ¬ (("all deposits are kept").data) <:+: q) ∧
     ∀ (t : List Char) (refs : List (List Char)) (rest : List (List Char × List (List Char))),
       highlight_text_with_clauses t (((("clause_1").data), refs) :: rest) =
         highlight_text_with_clauses
           (refs.foldl (fun a r => highlight_step a (("clause_1").data) r) t) rest) :=
  ⟨⟨by decide, by decide⟩,
    highlight_step_wraps (("Note: all deposits are kept in escrow; all deposits are kept safe.").data)
      (("clause_1").data) (("all deposits are kept").data) (by decide) (by decide)⟩

/-! ### Claim C5: identical spans for two clauses nest, later inside earlier -/

/-- C5: when two clauses (in mapping iteration order) reference the exact
same span text, the annotator first wraps the occurrence for the earlier
clause, and the later clause's substitution then matches the span *inside*
the earlier markup, so the later clause's wrapping ends up directly around
the span, nested inside the earlier clause's wrapping — last writer
innermost.  The `noMatchBefore` hypotheses say the span has exactly one
occurrence and does not collide with the markup text. -/
theorem highlight_same_span_nested (p0 p1 ref id1 id2 : List Char)
    (hne : ref ≠ []) (hlen : 20 < (pyStrip ref).length)
    (h0 : noMatchBefore ref p0 (ref ++ p1))
    (h1 : noMatchBefore ref p1 [])
    (h2 : noMatchBefore ref (p0 ++ openTag id1) (ref ++ (closeTag ++ p1)))
    (h3 : noMatchBefore ref (closeTag ++ p1) []) :
    highlight_text_with_clauses (p0 ++ ref ++ p1) [(id1, [ref]), (id2, [ref])] =
      p0 ++ openTag id1 ++ (openTag id2 ++ ref ++ closeTag) ++ (closeTag ++ p1) := by
  have hstep : ∀ t cid, highlight_step t cid ref = pyReplace ref (clauseSpan cid ref) t := by
    intro t cid
    rw [highlight_step, if_pos ⟨hne, hlen⟩]
  have hfold : highlight_text_with_clauses (p0 ++ ref ++ p1) [(id1, [ref]), (id2, [ref])] =
      highlight_step (highlight_step (p0 ++ ref ++ p1) id1 ref) id2 ref := rfl
  rw [hfold, hstep, hstep]
  have e1 : pyReplace ref (clauseSpan id1 ref) (p0 ++ ref ++ p1) =
      (p0 ++ openTag id1) ++ (ref ++ (closeTag ++ p1)) := by
    rw [List.append_assoc, pyReplace_append_of_noMatch _ _ _ _ h0,
      pyReplace_head_match _ _ _ hne, pyReplace_eq_self_of_noMatch _ _ _ h1]
    simp [clauseSpan, List.append_assoc]
  rw [e1, pyReplace_append_of_noMatch _ _ _ _ h2,
    pyReplace_head_match _ _ _ hne, pyReplace_eq_self_of_noMatch _ _ _ h3]
  simp [clauseSpan, List.append_assoc]

/-- C5 witness: two clauses referencing the same unique 21-character span
of a concrete document. -/
theorem highlight_same_span_nested_witness :
    ((("XXXXXXXXXXXXXXXXXXXXX").data ≠ []) ∧
      20 < (pyStrip (("XXXXXXXXXXXXXXXXXXXXX").data)).length ∧
      noMatchBefore (("XXXXXXXXXXXXXXXXXXXXX").data) (("see: ").data)
        ((("XXXXXXXXXXXXXXXXXXXXX").data) ++ (" end.").data) ∧
      noMatchBefore (("XXXXXXXXXXXXXXXXXXXXX").data) ((" end.").data) [] ∧
      noMatchBefore (("XXXXXXXXXXXXXXXXXXXXX").data)
        ((("see: ").data) ++ openTag (("clause_1").data))
        ((("XXXXXXXXXXXXXXXXXXXXX").data) ++ (closeTag ++ (" end.").data)) ∧
      noMatchBefore (("XXXXXXXXXXXXXXXXXXXXX").data) (closeTag ++ (" end.").data) []) ∧
    highlight_text_with_clauses
        ((("see: ").data) ++ (("XXXXXXXXXXXXXXXXXXXXX").data) ++ (" end.").data)
        [((("clause_1").data), [("XXXXXXXXXXXXXXXXXXXXX").data]),
         ((("clause_2").data), [("XXXXXXXXXXXXXXXXXXXXX").data])] =
      (("see: ").data) ++ openTag (("clause_1").data) ++
        (openTag (("clause_2").data) ++ (("XXXXXXXXXXXXXXXXXXXXX").data) ++ closeTag) ++
        (closeTag ++ (" end.").data) :=
  ⟨⟨by decide, by decide, by decide, by decide, by decide, by decide⟩,
    highlight_same_span_nested (("see: ").data) ((" end.").data)
      (("XXXXXXXXXXXXXXXXXXXXX").data) (("clause_1").data) (("clause_2").data)
      (by decide) (by decide) (by decide) (by decide) (by decide) (by decide)⟩

/-! ### Lemmas for the parser's normalisation step (claim C3) -/

lemma pyStrip_eq_self (s : List Char) (a : Char) (ha : s.head? = some a)
    (hna : a.isWhitespace = false) (b : Char) (hb : s.getLast? = some b)
    (hnb : b.isWhitespace = false) : pyStrip s = s := by
  have h := pyStrip_sandwich [] [] s (by simp) (by simp) a ha hna b hb hnb
  simpa using h

lemma isPrefixOf_cons_ne (a b : Char) (as bs : List Char) (h : ¬ a = b) :
    (a :: as).isPrefixOf (b :: bs) = false := by
  rw [Bool.eq_false_iff]
  intro hb
  have hp := List.isPrefixOf_iff_prefix.mp hb
  rw [List.cons_prefix_cons] at hp
  exact h hp.1

lemma isPrefixOf_append_same (l a b : List Char) :
    (l ++ a).isPrefixOf (l ++ b) = a.isPrefixOf b := by
  induction l with
  | nil => rfl
  | cons c cl ih =>
    show ((c == c) && (cl ++ a).isPrefixOf (cl ++ b)) = a.isPrefixOf b
    rw [beq_self_eq_true, Bool.true_and, ih]

lemma isPrefixOf_self_append (l r : List Char) : l.isPrefixOf (l ++ r) = true :=
  List.isPrefixOf_iff_prefix.mpr (List.prefix_append _ _)

lemma jsonTok_not_prefix_ws (w Z : List Char) (hw : ∀ c ∈ w, c.isWhitespace = true)
    (Zt : List Char) (hz : Z = '{' :: Zt) : jsonTok.isPrefixOf (w ++ Z) = false := by
  cases w with
  | nil =>
    rw [List.nil_append, hz]
    exact isPrefixOf_cons_ne 'j' '{' _ _ (by decide)
  | cons c cw =>
    have hcw : c.isWhitespace = true := hw c (List.mem_cons_self c cw)
    have hne : ¬ 'j' = c := by
      intro h
      rw [← h] at hcw
      simp at hcw
    exact isPrefixOf_cons_ne 'j' c _ _ hne

lemma replaceFirstJson_head (X : List Char) : replaceFirstJson (jsonTok ++ X) = X := by
  have hpre : jsonTok.isPrefixOf ('j' :: (['s', 'o', 'n'] ++ X)) = true :=
    isPrefixOf_self_append jsonTok X
  show replaceFirstJson ('j' :: (['s', 'o', 'n'] ++ X)) = X
  rw [replaceFirstJson, if_pos hpre]
  rfl

lemma getLast?_or_some (A B : List Char) (b : Char) (hb : B.getLast? = some b) :
    (A ++ B).getLast? = some b := by
  rw [List.getLast?_append, hb]
  rfl

/-- Stripping the trailing fence and surrounding whitespace from
`w1 ++ J ++ w2 ++ fence` (right associated), for a brace-delimited `J`,
recovers `J`. -/
lemma fenceTail_clean (w1 w2 Jt : List Char)
    (hw1 : ∀ c ∈ w1, c.isWhitespace = true) (hw2 : ∀ c ∈ w2, c.isWhitespace = true)
    (hl : ('{' :: Jt).getLast? = some '}') :
    pyStrip (stripTrailingFence (pyStrip (w1 ++ (('{' :: Jt) ++ (w2 ++ fence))))) =
      '{' :: Jt := by
  have hfl : fence.getLast? = some btk := rfl
  have hs_last : (('{' :: Jt) ++ (w2 ++ fence)).getLast? = some btk :=
    getLast?_or_some _ _ _ (getLast?_or_some _ _ _ hfl)
  have hp1 : pyStrip (w1 ++ (('{' :: Jt) ++ (w2 ++ fence))) =
      ('{' :: Jt) ++ (w2 ++ fence) := by
    have h := pyStrip_sandwich w1 [] (('{' :: Jt) ++ (w2 ++ fence)) hw1 (by simp)
      '{' rfl (by decide) btk hs_last (by decide)
    simpa using h
  rw [hp1]
  have hrev : (('{' :: Jt) ++ (w2 ++ fence)).reverse =
      fence.reverse ++ (w2.reverse ++ ('{' :: Jt).reverse) := by
    rw [List.reverse_append, List.reverse_append, List.append_assoc]
  have hcond : fence.reverse.isPrefixOf (('{' :: Jt) ++ (w2 ++ fence)).reverse = true := by
    rw [hrev]
    exact isPrefixOf_self_append _ _
  rw [stripTrailingFence, if_pos hcond]
  have hdrop : dropSuffixN 3 (('{' :: Jt) ++ (w2 ++ fence)) = ('{' :: Jt) ++ w2 := by
    rw [dropSuffixN, hrev, show (3 : Nat) = fence.reverse.length from rfl,
      List.drop_left, List.reverse_append, List.reverse_reverse, List.reverse_reverse]
  rw [hdrop]
  have h := pyStrip_sandwich [] w2 ('{' :: Jt) (by simp) hw2 '{' rfl (by decide)
    '}' hl (by decide)
  simpa using h

/-! ### Claim C3: fenced and unfenced payloads normalise identically -/

/-- C3: for a brace-delimited payload `J` (a JSON object text: first
character `{`, last character `}`) and any whitespace paddings `w1`, `w2`,
the parser's normalisation step maps the fenced form, the `json`-tagged
fenced form, the `json`-token form and the `json`-token-plus-fence form
all to exactly `J`, the same output it produces for the unwrapped `J` —
so any parser applied afterwards sees identical input. -/
theorem cleanResponse_unwraps (J w1 w2 : List Char)
    (hJ : J.head? = some '{') (hl : J.getLast? = some '}')
    (hw1 : ∀ c ∈ w1, c.isWhitespace = true) (hw2 : ∀ c ∈ w2, c.isWhitespace = true) :
    cleanResponse J = J ∧
    cleanResponse (fence ++ w1 ++ J ++ w2 ++ fence) = J ∧
    cleanResponse (fence ++ jsonTok ++ w1 ++ J ++ w2 ++ fence) = J ∧
    cleanResponse (jsonTok ++ w1 ++ J ++ w2) = J ∧
    cleanResponse (jsonTok ++ w1 ++ fence ++ J ++ fence ++ w2) = J ∧
    ∀ parse : List Char → Option (List (List Char × JVal)),
      parse (cleanResponse (fence ++ w1 ++ J ++ w2 ++ fence)) = parse (cleanResponse J) ∧
      parse (cleanResponse (fence ++ jsonTok ++ w1 ++ J ++ w2 ++ fence)) =
        parse (cleanResponse J) ∧
      parse (cleanResponse (jsonTok ++ w1 ++ J ++ w2)) = parse (cleanResponse J) ∧
      parse (cleanResponse (jsonTok ++ w1 ++ fence ++ J ++ fence ++ w2)) =
        parse (cleanResponse J) := by
  obtain ⟨Jt, rfl⟩ : ∃ Jt, J = '{' :: Jt := by
    cases J with
    | nil => simp at hJ
    | cons x xs =>
      simp only [List.head?_cons, Option.some.injEq] at hJ
      exact ⟨xs, by rw [hJ]⟩
  have hJstrip : pyStrip ('{' :: Jt) = '{' :: Jt :=
    pyStrip_eq_self _ '{' rfl (by decide) '}' hl (by decide)
  have hJjson : jsonTok.isPrefixOf ('{' :: Jt) = false :=
    isPrefixOf_cons_ne 'j' '{' _ _ (by decide)
  have hJfence : fence.isPrefixOf ('{' :: Jt) = false :=
    isPrefixOf_cons_ne btk '{' _ _ (by decide)
  have h1 : cleanResponse ('{' :: Jt) = '{' :: Jt := by
    rw [cleanResponse, hJstrip, cleanJsonTok, hJjson, if_neg Bool.false_ne_true,
      cleanFence, hJfence, if_neg Bool.false_ne_true]
  have h2 : cleanResponse (fence ++ w1 ++ ('{' :: Jt) ++ w2 ++ fence) = '{' :: Jt := by
    have hassoc : fence ++ w1 ++ ('{' :: Jt) ++ w2 ++ fence =
        fence ++ (w1 ++ (('{' :: Jt) ++ (w2 ++ fence))) := by
      simp [List.append_assoc]
    have hlast : (fence ++ (w1 ++ (('{' :: Jt) ++ (w2 ++ fence)))).getLast? = some btk :=
      getLast?_or_some _ _ _ (getLast?_or_some _ _ _
        (getLast?_or_some _ _ _ (getLast?_or_some _ _ _ rfl)))
    have hstrip : pyStrip (fence ++ (w1 ++ (('{' :: Jt) ++ (w2 ++ fence)))) =
        fence ++ (w1 ++ (('{' :: Jt) ++ (w2 ++ fence))) :=
      pyStrip_eq_self _ btk rfl (by decide) btk hlast (by decide)
    have hjson : jsonTok.isPrefixOf (fence ++ (w1 ++ (('{' :: Jt) ++ (w2 ++ fence)))) = false :=
      isPrefixOf_cons_ne 'j' btk _ _ (by decide)
    have hlead : stripLeadingFence (fence ++ (w1 ++ (('{' :: Jt) ++ (w2 ++ fence)))) =
        w1 ++ (('{' :: Jt) ++ (w2 ++ fence)) := by
      rw [stripLeadingFence, isPrefixOf_append_same,
        jsonTok_not_prefix_ws w1 _ hw1 (Jt ++ (w2 ++ fence)) (by simp),
        if_neg Bool.false_ne_true, isPrefixOf_self_append, if_pos rfl,
        show (3 : Nat) = fence.length from rfl, List.drop_left]
    rw [hassoc, cleanResponse, hstrip, cleanJsonTok, hjson, if_neg Bool.false_ne_true,
      cleanFence, isPrefixOf_self_append, if_pos rfl, hlead,
      fenceTail_clean w1 w2 Jt hw1 hw2 hl]
  have h3 : cleanResponse (fence ++ jsonTok ++ w1 ++ ('{' :: Jt) ++ w2 ++ fence) =
      '{' :: Jt := by
    have hassoc : fence ++ jsonTok ++ w1 ++ ('{' :: Jt) ++ w2 ++ fence =
        (fence ++ jsonTok) ++ (w1 ++ (('{' :: Jt) ++ (w2 ++ fence))) := by
      simp [List.append_assoc]
    have hlast : ((fence ++ jsonTok) ++ (w1 ++ (('{' :: Jt) ++ (w2 ++ fence)))).getLast? =
        some btk :=
      getLast?_or_some _ _ _ (getLast?_or_some _ _ _
        (getLast?_or_some _ _ _ (getLast?_or_some _ _ _ rfl)))
    have hstrip : pyStrip ((fence ++ jsonTok) ++ (w1 ++ (('{' :: Jt) ++ (w2 ++ fence)))) =
        (fence ++ jsonTok) ++ (w1 ++ (('{' :: Jt) ++ (w2 ++ fence))) :=
      pyStrip_eq_self _ btk rfl (by decide) btk hlast (by decide)
    have hjson : jsonTok.isPrefixOf
        ((fence ++ jsonTok) ++ (w1 ++ (('{' :: Jt) ++ (w2 ++ fence)))) = false :=
      isPrefixOf_cons_ne 'j' btk _ _ (by decide)
    have hfpre : fence.isPrefixOf
        ((fence ++ jsonTok) ++ (w1 ++ (('{' :: Jt) ++ (w2 ++ fence)))) = true := by
      rw [List.append_assoc]
      exact isPrefixOf_self_append _ _
    have hlead : stripLeadingFence
        ((fence ++ jsonTok) ++ (w1 ++ (('{' :: Jt) ++ (w2 ++ fence)))) =
        w1 ++ (('{' :: Jt) ++ (w2 ++ fence)) := by
      rw [stripLeadingFence, isPrefixOf_self_append, if_pos rfl,
        show (7 : Nat) = (fence ++ jsonTok).length from rfl, List.drop_left]
    rw [hassoc, cleanResponse, hstrip, cleanJsonTok, hjson, if_neg Bool.false_ne_true,
      cleanFence, hfpre, if_pos rfl, hlead, fenceTail_clean w1 w2 Jt hw1 hw2 hl]
  have h4 : cleanResponse (jsonTok ++ w1 ++ ('{' :: Jt) ++ w2) = '{' :: Jt := by
    have hassoc : jsonTok ++ w1 ++ ('{' :: Jt) ++ w2 =
        (jsonTok ++ (w1 ++ ('{' :: Jt))) ++ w2 := by
      simp [List.append_assoc]
    have hslast : (jsonTok ++ (w1 ++ ('{' :: Jt))).getLast? = some '}' :=
      getLast?_or_some _ _ _ (getLast?_or_some _ _ _ hl)
    have hstrip : pyStrip ((jsonTok ++ (w1 ++ ('{' :: Jt))) ++ w2) =
        jsonTok ++ (w1 ++ ('{' :: Jt)) := by
      have h := pyStrip_sandwich [] w2 (jsonTok ++ (w1 ++ ('{' :: Jt))) (by simp) hw2
        'j' rfl (by decide) '}' hslast (by decide)
      simpa using h
    have hp2 : pyStrip (w1 ++ ('{' :: Jt)) = '{' :: Jt := by
      have h := pyStrip_sandwich w1 [] ('{' :: Jt) hw1 (by simp) '{' rfl (by decide)
        '}' hl (by decide)
      simpa using h
    rw [hassoc, cleanResponse, hstrip, cleanJsonTok, isPrefixOf_self_append, if_pos rfl,
      replaceFirstJson_head, hp2, cleanFence, hJfence, if_neg Bool.false_ne_true]
  have h5 : cleanResponse (jsonTok ++ w1 ++ fence ++ ('{' :: Jt) ++ fence ++ w2) =
      '{' :: Jt := by
    have hassoc : jsonTok ++ w1 ++ fence ++ ('{' :: Jt) ++ fence ++ w2 =
        (jsonTok ++ (w1 ++ (fence ++ (('{' :: Jt) ++ fence)))) ++ w2 := by
      simp [List.append_assoc]
    have hslast : (jsonTok ++ (w1 ++ (fence ++ (('{' :: Jt) ++ fence)))).getLast? =
        some btk :=
      getLast?_or_some _ _ _ (getLast?_or_some _ _ _
        (getLast?_or_some _ _ _ (getLast?_or_some _ _ _ rfl)))
    have hstrip : pyStrip ((jsonTok ++ (w1 ++ (fence ++ (('{' :: Jt) ++ fence)))) ++ w2) =
        jsonTok ++ (w1 ++ (fence ++ (('{' :: Jt) ++ fence))) := by
      have h := pyStrip_sandwich [] w2 (jsonTok ++ (w1 ++ (fence ++ (('{' :: Jt) ++ fence))))
        (by simp) hw2 'j' rfl (by decide) btk hslast (by decide)
      simpa using h
    have hmidlast : (fence ++ (('{' :: Jt) ++ fence)).getLast? = some btk :=
      getLast?_or_some _ _ _ (getLast?_or_some _ _ _ rfl)
    have hp2 : pyStrip (w1 ++ (fence ++ (('{' :: Jt) ++ fence))) =
        fence ++ (('{' :: Jt) ++ fence) := by
      have h := pyStrip_sandwich w1 [] (fence ++ (('{' :: Jt) ++ fence)) hw1 (by simp)
        btk rfl (by decide) btk hmidlast (by decide)
      simpa using h
    have hlead : stripLeadingFence (fence ++ (('{' :: Jt) ++ fence)) =
        ('{' :: Jt) ++ fence := by
      rw [stripLeadingFence, isPrefixOf_append_same,
        show jsonTok.isPrefixOf (('{' :: Jt) ++ fence) = false from
          isPrefixOf_cons_ne 'j' '{' _ _ (by decide),
        if_neg Bool.false_ne_true, isPrefixOf_self_append, if_pos rfl,
        show (3 : Nat) = fence.length from rfl, List.drop_left]
    have hmid2 : (('{' :: Jt) ++ fence).getLast? = some btk := getLast?_or_some _ _ _ rfl
    have hp3 : pyStrip (('{' :: Jt) ++ fence) = ('{' :: Jt) ++ fence :=
      pyStrip_eq_self _ '{' rfl (by decide) btk hmid2 (by decide)
    have hrev : (('{' :: Jt) ++ fence).reverse = fence.reverse ++ ('{' :: Jt).reverse :=
      List.reverse_append _ _
    have htrail : stripTrailingFence (('{' :: Jt) ++ fence) = '{' :: Jt := by
      rw [stripTrailingFence, hrev, isPrefixOf_self_append, if_pos rfl, dropSuffixN, hrev,
        show (3 : Nat) = fence.reverse.length from rfl, List.drop_left,
        List.reverse_reverse]
    rw [hassoc, cleanResponse, hstrip, cleanJsonTok, isPrefixOf_self_append, if_pos rfl,
      replaceFirstJson_head, hp2, cleanFence, isPrefixOf_self_append, if_pos rfl,
      hlead, hp3, htrail, hJstrip]
  refine ⟨h1, h2, h3, h4, h5, ?_⟩
  intro parse
  rw [h1, h2, h3, h4, h5]
  exact ⟨rfl, rfl, rfl, rfl⟩

/-- C3 witness: a concrete JSON object payload with newline and space
padding, in all four wrapped forms. -/
theorem cleanResponse_unwraps_witness :
    ((("\x7b\"ok\": 1\x7d").data).head? = some '{' ∧
      (("\x7b\"ok\": 1\x7d").data).getLast? = some '}' ∧
      (∀ c ∈ ['\n'], c.isWhitespace = true) ∧ (∀ c ∈ [' '], c.isWhitespace = true)) ∧
    (cleanResponse (("\x7b\"ok\": 1\x7d").data) = ("\x7b\"ok\": 1\x7d").data ∧
     cleanResponse (fence ++ ['\n'] ++ (("\x7b\"ok\": 1\x7d").data) ++ [' '] ++ fence) =
       ("\x7b\"ok\": 1\x7d").data ∧
     cleanResponse (fence ++ jsonTok ++ ['\n'] ++ (("\x7b\"ok\": 1\x7d").data) ++ [' '] ++ fence) =
       ("\x7b\"ok\": 1\x7d").data ∧
     cleanResponse (jsonTok ++ ['\n'] ++ (("\x7b\"ok\": 1\x7d").data) ++ [' ']) =
       ("\x7b\"ok\": 1\x7d").data ∧
     cleanResponse (jsonTok ++ ['\n'] ++ fence ++ (("\x7b\"ok\": 1\x7d").data) ++ fence ++ [' ']) =
       ("\x7b\"ok\": 1\x7d").data ∧
     ∀ parse : List Char → Option (List (List Char × JVal)),
       parse (cleanResponse (fence ++ ['\n'] ++ (("\x7b\"ok\": 1\x7d").data) ++ [' '] ++ fence)) =
         parse (cleanResponse (("\x7b\"ok\": 1\x7d").data)) ∧
       parse (cleanResponse
           (fence ++ jsonTok ++ ['\n'] ++ (("\x7b\"ok\": 1\x7d").data) ++ [' '] ++ fence)) =
         parse (cleanResponse (("\x7b\"ok\": 1\x7d").data)) ∧
       parse (cleanResponse (jsonTok ++ ['\n'] ++ (("\x7b\"ok\": 1\x7d").data) ++ [' '])) =
         parse (cleanResponse (("\x7b\"ok\": 1\x7d").data)) ∧
       parse (cleanResponse
           (jsonTok ++ ['\n'] ++ fence ++ (("\x7b\"ok\": 1\x7d").data) ++ fence ++ [' '])) =
         parse (cleanResponse (("\x7b\"ok\": 1\x7d").data))) :=
  ⟨⟨by decide, by decide, by decide, by decide⟩,
    cleanResponse_unwraps (("\x7b\"ok\": 1\x7d").data) ['\n'] [' ']
      (by decide) (by decide) (by decide) (by decide)⟩

/-! ### Lemmas about the formatter -/

lemma extract_getElem? {Q : Type} (search : Q → List (List Char) → List Nat)
    (text : List Char) (clauses : List Q) (i : Nat) (q : Q)
    (hq : clauses[i]? = some q) :
    (extract_clause_references search text clauses)[i]? =
      some (clauseId (i + 1),
        (search q (splitSentences text)).map (fun j => (splitSentences text).getD j [])) := by
  simp only [extract_clause_references, List.getElem?_map, List.getElem?_enum, hq]
  rfl

lemma clauseText_nondict (c : JVal) (h : isDict c = false) :
    clauseText c = JVal.jstr (toPyStr c) := by
  cases c with
  | jobj m => simp [isDict] at h
  | jstr s => rfl
  | jnum n => rfl
  | jarr l => rfl

lemma clauseHtml_nondict (i : Nat) (c : JVal) (h : isDict c = false) :
    clauseHtml i c = bareClauseHtml i c := by
  cases c with
  | jobj m => simp [isDict] at h
  | jstr s => rfl
  | jnum n => rfl
  | jarr l => rfl

lemma jGetD_of_none (m : List (List Char × JVal)) (k : List Char) (d : JVal)
    (h : jLookup m k = none) : jGetD m k d = d := by
  rw [jGetD, h]
  rfl

/-! ### Claim C10: non-dict clause elements are rendered and grounded -/

/-- C10: for any parsed result, the formatter emits exactly one clause
block per `KEY_CLAUSES` element and one positional `clause_<i+1>`
reference entry per element, whatever the element's shape; for an element
that is not a dict, the rendered block is the bare-element block and its
grounding query is the element's string form — formatting and grounding
are total on non-dict clause entries. -/
theorem format_nondict_clause (search : JVal → List (List Char) → List Nat)
    (result : List (List Char × JVal)) (text : List Char) (i : Nat) (c : JVal)
    (hc : (asList (jGetD result (("KEY_CLAUSES").data) (JVal.jarr [])))[i]? = some c)
    (hnd : isDict c = false) :
    (format_response_with_html search result text).KEY_CLAUSES.length =
      (asList (jGetD result (("KEY_CLAUSES").data) (JVal.jarr []))).length ∧
    (format_response_with_html search result text).clause_references.length =
      (asList (jGetD result (("KEY_CLAUSES").data) (JVal.jarr []))).length ∧
    (format_response_with_html search result text).clause_references.map Prod.fst =
      (List.range (asList (jGetD result (("KEY_CLAUSES").data) (JVal.jarr []))).length).map
        (fun k => clauseId (k + 1)) ∧
    (format_response_with_html search result text).KEY_CLAUSES[i]? =
      some (bareClauseHtml i c) ∧
    (format_response_with_html search result text).clause_references[i]? =
      some (clauseId (i + 1),
        (search (JVal.jstr (toPyStr c)) (splitSentences text)).map
          (fun j => (splitSentences text).getD j [])) := by
  refine ⟨?_, ?_, ?_, ?_, ?_⟩
  · simp [format_response_with_html]
  · simp [format_response_with_html, extract_clause_references]
  · have h1 : (format_response_with_html search result text).clause_references.map Prod.fst =
        ((asList (jGetD result (("KEY_CLAUSES").data) (JVal.jarr []))).map clauseText).enum.map
          (fun p => clauseId (p.1 + 1)) := by
      simp only [format_response_with_html, extract_clause_references, List.map_map]
      rfl
    rw [h1,
      show (fun (p : Nat × JVal) => clauseId (p.1 + 1))
          = ((fun k => clauseId (k + 1)) ∘ Prod.fst) from rfl,
      ← List.map_map, List.enum_map_fst, List.length_map]
  · simp only [format_response_with_html, List.getElem?_map, List.getElem?_enum, hc]
    rw [show Option.map (fun a => (i, a)) (some c) = some (i, c) from rfl]
    rw [show Option.map (fun p : Nat × JVal => clauseHtml p.1 p.2) (some (i, c))
        = some (clauseHtml i c) from rfl, clauseHtml_nondict i c hnd]
  · have h2 : ((asList (jGetD result (("KEY_CLAUSES").data) (JVal.jarr []))).map
        clauseText)[i]? = some (JVal.jstr (toPyStr c)) := by
      rw [List.getElem?_map, hc]
      rw [show Option.map clauseText (some c) = some (clauseText c) from rfl,
        clauseText_nondict c hnd]
    simp only [format_response_with_html]
    exact extract_getElem? search text _ i _ h2

/-- C10 witness: a result whose `KEY_CLAUSES` holds a bare string. -/
theorem format_nondict_clause_witness :
    ((asList (jGetD [((("KEY_CLAUSES").data),
          JVal.jarr [JVal.jstr (("check the fine print carefully").data)])]
        (("KEY_CLAUSES").data) (JVal.jarr [])))[0]? =
      some (JVal.jstr (("check the fine print carefully").data)) ∧
     isDict (JVal.jstr (("check the fine print carefully").data)) = false) ∧
    ((format_response_with_html (searchTop2 (Q := JVal))
        [((("KEY_CLAUSES").data),
          JVal.jarr [JVal.jstr (("check the fine print carefully").data)])]
        (("short doc").data)).KEY_CLAUSES.length =
      (asList (jGetD [((("KEY_CLAUSES").data),
          JVal.jarr [JVal.jstr (("check the fine print carefully").data)])]
        (("KEY_CLAUSES").data) (JVal.jarr []))).length ∧
     (format_response_with_html (searchTop2 (Q := JVal))
        [((("KEY_CLAUSES").data),
          JVal.jarr [JVal.jstr (("check the fine print carefully").data)])]
        (("short doc").data)).clause_references.length =
      (asList (jGetD [((("KEY_CLAUSES").data),
          JVal.jarr [JVal.jstr (("check the fine print carefully").data)])]
        (("KEY_CLAUSES").data) (JVal.jarr []))).length ∧
     (format_response_with_html (searchTop2 (Q := JVal))
        [((("KEY_CLAUSES").data),
          JVal.jarr [JVal.jstr (("check the fine print carefully").data)])]
        (("short doc").data)).clause_references.map Prod.fst =
      (List.range (asList (jGetD [((("KEY_CLAUSES").data),
          JVal.jarr [JVal.jstr (("check the fine print carefully").data)])]
        (("KEY_CLAUSES").data) (JVal.jarr []))).length).map (fun k => clauseId (k + 1)) ∧
     (format_response_with_html (searchTop2 (Q := JVal))
        [((("KEY_CLAUSES").data),
          JVal.jarr [JVal.jstr (("check the fine print carefully").data)])]
        (("short doc").data)).KEY_CLAUSES[0]? =
      some (bareClauseHtml 0 (JVal.jstr (("check the fine print carefully").data))) ∧
     (format_response_with_html (searchTop2 (Q := JVal))
        [((("KEY_CLAUSES").data),
          JVal.jarr [JVal.jstr (("check the fine print carefully").data)])]
        (("short doc").data)).clause_references[0]? =
      some (clauseId (0 + 1),
        (searchTop2 (JVal.jstr (toPyStr (JVal.jstr (("check the fine print carefully").data))))
            (splitSentences (("short doc").data))).map
          (fun j => (splitSentences (("short doc").data)).getD j []))) :=
  ⟨⟨rfl, rfl⟩,
    format_nondict_clause (searchTop2 (Q := JVal))
      [((("KEY_CLAUSES").data), JVal.jarr [JVal.jstr (("check the fine print carefully").data)])]
      (("short doc").data) 0 (JVal.jstr (("check the fine print carefully").data))
      rfl rfl⟩

/-! ### Claim C8: normalisation defaults of the formatter -/

lemma joinSep_nil (sep : List Char) : joinSep sep [] = [] := rfl

/-- C8 counterexample: the claim says a *non-numeric* `overall_risk` also
defaults to 5, but the code renders whatever value is present: with
`overall_risk = "abc"` the rendered risk section reads
`Overall Risk Score: abc/10` and nowhere `5/10`. -/
theorem riskHtml_nonnumeric_passthrough :
    (("Overall Risk Score: abc/10").data <:+:
      (format_response_with_html (fun _ _ => [])
        [((("RISK_ASSESSMENT").data),
          JVal.jobj [((("overall_risk").data), JVal.jstr (("abc").data))])]
        (("doc").data)).RISK_ASSESSMENT) ∧
    ¬ (("Overall Risk Score: 5/10").data <:+:
      (format_response_with_html (fun _ _ => [])
        [((("RISK_ASSESSMENT").data),
          JVal.jobj [((("overall_risk").data), JVal.jstr (("abc").data))])]
        (("doc").data)).RISK_ASSESSMENT) := by
  decide

/-- C8 (amended): the formatter supplies defaults for *absent* fields —
absent `KEY_CLAUSES`/`IMPORTANT_TERMS`/`ACTION_ITEMS` render as the empty
collections (and no clause references), an absent `RISK_ASSESSMENT`
renders with the default overall risk 5 (`Overall Risk Score: 5/10`), an
absent `SIMPLIFIED_SUMMARY` renders as the empty summary block, and a
clause without `importance` renders `Importance: Medium`; a *present but
non-numeric* `overall_risk`, however, is rendered as-is (no 5 default) —
only absence triggers the default. -/
theorem format_response_defaults :
    (∀ (search : JVal → List (List Char) → List Nat)
        (result : List (List Char × JVal)) (text : List Char),
      jLookup result (("KEY_CLAUSES").data) = none →
      jLookup result (("RISK_ASSESSMENT").data) = none →
      jLookup result (("IMPORTANT_TERMS").data) = none →
      jLookup result (("ACTION_ITEMS").data) = none →
      (format_response_with_html search result text).KEY_CLAUSES = [] ∧
      (format_response_with_html search result text).clause_references = [] ∧
      (format_response_with_html search result text).RISK_ASSESSMENT =
        riskHtml (JVal.jobj []) ∧
      (format_response_with_html search result text).IMPORTANT_TERMS =
        ("<div class=\x27terms-section\x27></div>").data ∧
      (format_response_with_html search result text).ACTION_ITEMS =
        ("<ul class=\x27action-items\x27></ul>").data ∧
      (format_response_with_html search result text).highlighted_document =
        ("<div class=\x27document-text\x27>").data ++ text ++ ("</div>").data) ∧
    (("Overall Risk Score: 5/10").data <:+: riskHtml (JVal.jobj [])) ∧
    (∀ (search : JVal → List (List Char) → List Nat)
        (result : List (List Char × JVal)) (text : List Char),
      jLookup result (("SIMPLIFIED_SUMMARY").data) = none →
      (format_response_with_html search result text).SIMPLIFIED_SUMMARY =
        ("<div class=\x27summary-section\x27><p></p></div>").data) ∧
    (∀ (i : Nat) (m : List (List Char × JVal)),
      jLookup m (("importance").data) = none →
      ("Importance: Medium").data <:+: dictClauseHtml i m) ∧
    (∀ s : List Char,
      (("Overall Risk Score: ").data ++ s ++ ("/10").data) <:+:
        riskHtml (JVal.jobj [((("overall_risk").data), JVal.jstr s)])) := by
  refine ⟨?_, by decide, ?_, ?_, ?_⟩
  · intro search result text hk hr ht ha
    have ek := jGetD_of_none result (("KEY_CLAUSES").data) (JVal.jarr []) hk
    have er := jGetD_of_none result (("RISK_ASSESSMENT").data) (JVal.jobj []) hr
    have et := jGetD_of_none result (("IMPORTANT_TERMS").data) (JVal.jobj []) ht
    have ea := jGetD_of_none result (("ACTION_ITEMS").data) (JVal.jarr []) ha
    refine ⟨?_, ?_, ?_, ?_, ?_, ?_⟩ <;>
      · simp only [format_response_with_html, ek, er, et, ea]
        try rfl
  · intro search result text hs
    have es := jGetD_of_none result (("SIMPLIFIED_SUMMARY").data) (JVal.jstr []) hs
    simp only [format_response_with_html, es]
    rfl
  · intro i m hm
    have hmed : jGetD m (("importance").data) (JVal.jstr (("medium").data)) =
        JVal.jstr (("medium").data) :=
      jGetD_of_none m _ _ hm
    have hMed : jGetD m (("importance").data) (JVal.jstr (("Medium").data)) =
        JVal.jstr (("Medium").data) :=
      jGetD_of_none m _ _ hm
    have hshape : dictClauseHtml i m =
        ((("\n                <div class=\x27clause-item\x27 data-clause-id=\x27clause_").data
          ++ (toString (i + 1)).data
          ++ ("\x27>\n                    <h4 class=\x27clause-title\x27>").data
          ++ toPyStr (jGetD m (("title").data)
              (JVal.jstr ((("Clause ").data) ++ (toString (i + 1)).data)))
          ++ ("</h4>\n                    <div class=\x27clause-importance importance-").data
          ++ lowerStr (("medium").data)
          ++ ("\x27>\n                        ").data))
        ++ (("Importance: Medium").data)
        ++ ((("\n                    </div>\n                    <p class=\x27clause-explanation\x27>").data
          ++ toPyStr (jGetD m (("explanation").data) (JVal.jstr []))
          ++ ("</p>\n                    ").data
          ++ (if truthy (jLookup m (("original_excerpt").data)) then
                ("<blockquote class=\x27original-text\x27>").data
                  ++ toPyStr (jGetD m (("original_excerpt").data) (JVal.jstr []))
                  ++ ("</blockquote>").data
              else [])
          ++ ("\n                </div>\n                ").data)) := by
      rw [dictClauseHtml, hmed, hMed,
        show toPyStr (JVal.jstr (("medium").data)) = ("medium").data from rfl,
        show toPyStr (JVal.jstr (("Medium").data)) = ("Medium").data from rfl,
        show ("\x27>\n                        Importance: ").data =
          ("\x27>\n                        ").data ++ ("Importance: ").data from by decide,
        show ("Importance: Medium").data =
          ("Importance: ").data ++ ("Medium").data from by decide]
      simp [List.append_assoc]
    exact ⟨_, _, hshape.symm⟩
  · intro s
    have hov : jGetD [((("overall_risk").data), JVal.jstr s)] (("overall_risk").data)
        (JVal.jnum 5) = JVal.jstr s := rfl
    have hrf : jGetD [((("overall_risk").data), JVal.jstr s)] (("risk_factors").data)
        (JVal.jarr []) = JVal.jarr [] := rfl
    have hshape : riskHtml (JVal.jobj [((("overall_risk").data), JVal.jstr s)]) =
        ((("\n            <div class=\x27risk-assessment\x27>\n                <div class=\x27overall-risk risk-level-").data
          ++ s ++ ("\x27>\n                    <strong>").data))
        ++ ((("Overall Risk Score: ").data ++ s ++ ("/10").data))
        ++ ((("</strong>\n                </div>\n                <ul class=\x27risk-factors\x27>\n                    ").data
          ++ ("\n                </ul>\n            </div>\n            ").data)) := by
      simp only [riskHtml, hov, hrf]
      simp [toPyStr, asList, joinSep_nil, List.append_assoc]
    exact ⟨_, _, hshape.symm⟩

/-- C8 witness: the amended theorem applied to the one-field result
`\x7b"SIMPLIFIED_SUMMARY": "ok"\x7d` (the spec's example scenario) and to a
concrete clause dict without `importance`. -/
theorem format_response_defaults_witness :
    (jLookup [((("SIMPLIFIED_SUMMARY").data), JVal.jstr (("ok").data))]
        (("KEY_CLAUSES").data) = none ∧
      jLookup [((("SIMPLIFIED_SUMMARY").data), JVal.jstr (("ok").data))]
        (("RISK_ASSESSMENT").data) = none ∧
      jLookup [((("SIMPLIFIED_SUMMARY").data), JVal.jstr (("ok").data))]
        (("IMPORTANT_TERMS").data) = none ∧
      jLookup [((("SIMPLIFIED_SUMMARY").data), JVal.jstr (("ok").data))]
        (("ACTION_ITEMS").data) = none ∧
      jLookup [((("title").data), JVal.jstr (("Fees").data))] (("importance").data) = none) ∧
    ((format_response_with_html (searchTop2 (Q := JVal))
        [((("SIMPLIFIED_SUMMARY").data), JVal.jstr (("ok").data))]
        (("doc").data)).KEY_CLAUSES = [] ∧
      (format_response_with_html (searchTop2 (Q := JVal))
        [((("SIMPLIFIED_SUMMARY").data), JVal.jstr (("ok").data))]
        (("doc").data)).clause_references = [] ∧
      (format_response_with_html (searchTop2 (Q := JVal))
        [((("SIMPLIFIED_SUMMARY").data), JVal.jstr (("ok").data))]
        (("doc").data)).RISK_ASSESSMENT = riskHtml (JVal.jobj []) ∧
      (format_response_with_html (searchTop2 (Q := JVal))
        [((("SIMPLIFIED_SUMMARY").data), JVal.jstr (("ok").data))]
        (("doc").data)).IMPORTANT_TERMS = ("<div class=\x27terms-section\x27></div>").data ∧
      (format_response_with_html (searchTop2 (Q := JVal))
        [((("SIMPLIFIED_SUMMARY").data), JVal.jstr (("ok").data))]
        (("doc").data)).ACTION_ITEMS = ("<ul class=\x27action-items\x27></ul>").data ∧
      (format_response_with_html (searchTop2 (Q := JVal))
        [((("SIMPLIFIED_SUMMARY").data), JVal.jstr (("ok").data))]
        (("doc").data)).highlighted_document =
        ("<div class=\x27document-text\x27>").data ++ (("doc").data) ++ ("</div>").data) ∧
    (("Importance: Medium").data <:+:
      dictClauseHtml 0 [((("title").data), JVal.jstr (("Fees").data))]) :=
  ⟨⟨rfl, rfl, rfl, rfl, rfl⟩,
    format_response_defaults.1 (searchTop2 (Q := JVal))
      [((("SIMPLIFIED_SUMMARY").data), JVal.jstr (("ok").data))] (("doc").data)
      rfl rfl rfl rfl,
    format_response_defaults.2.2.2.1 0 [((("title").data), JVal.jstr (("Fees").data))] rfl⟩

/-! ### Claim C2: the parse-failure fallback -/

/-- C2: evaluating `simplify_legal_document` at a response whose cleaned
text does not parse yields the fixed fallback record — but its
`SIMPLIFIED_SUMMARY` is the one-element Python *set* holding the response
text (the set literal on line 130 of `ai_services.py`), not the raw
response string itself as the claim states; every other fallback field is
as claimed (single placeholder clause, overall risk 5 with no factors,
empty terms, a single review action item, and the original text wrapped
with no clause markup). -/
theorem simplify_fallback_summary_is_set :
    simplify_legal_document (fun _ => none) (fun _ _ => [])
        (("model said something unstructured").data)
        (("Tenant agrees to the lease terms.").data) =
      PyVal.vdict
        [ ((("SIMPLIFIED_SUMMARY").data),
            PyVal.vset [PyVal.vstr (("model said something unstructured").data)])
        , ((("KEY_CLAUSES").data),
            PyVal.vlist
              [PyVal.vdict
                [ ((("title").data), PyVal.vstr (("Unable to parse").data))
                , ((("explanation").data), PyVal.vstr (("Please review manually").data))
                , ((("importance").data), PyVal.vstr (("Medium").data)) ]])
        , ((("RISK_ASSESSMENT").data),
            PyVal.vdict
              [ ((("overall_risk").data), PyVal.vint 5)
              , ((("risk_factors").data), PyVal.vlist []) ])
        , ((("IMPORTANT_TERMS").data), PyVal.vdict [])
        , ((("ACTION_ITEMS").data),
            PyVal.vlist [PyVal.vstr (("<p>Review document carefully</p>").data)])
        , ((("highlighted_document").data),
            PyVal.vstr ((("<div class=\x27document-text\x27>").data)
              ++ (("Tenant agrees to the lease terms.").data) ++ (("</div>").data))) ] ∧
    PyVal.vset [PyVal.vstr (("model said something unstructured").data)] ≠
      PyVal.vstr (("model said something unstructured").data) :=
  ⟨rfl, fun h => PyVal.noConfusion h⟩

end LegalDocs
